import Mathlib

/-!
Shallow embedding of the tweetly accrual-and-settlement pipeline
(`src/backend/api/backend_blockchain.py`, class `BlockchainService`, and the
off-chain accrual function `update_user_token_count` in
`src/backend/api/backend.py`), together with theorems settling the frozen
claims about the natural-language specification.

Modelling conventions:
* Timestamps are natural numbers (seconds); `datetime.now()` becomes an
  explicit `now : Nat` argument threaded into every operation that reads the
  clock.  Where Python interpolates a timestamp into a string we use its
  decimal rendering `toString now`.
* Python numbers relevant to the claims are rationals.  Where the *dynamic
  type* of a Python number matters (the `decimal.Decimal` returned by
  `Web3.from_wei` refuses to multiply with a `float`), we carry the type tag
  explicitly in `PyNum` and model the `TypeError`.
* Fallible Python code returns `Except PyErr`; a raised-and-propagated
  exception is an `Except.error`, a `try/except` is a `match` on it.
* External collaborators (web3/eth_account chain client, `hashlib.sha256`,
  address validation) are oracles collected in the `Ext` structure; their
  concrete behaviour is irrelevant to the claims except where stated.
* The two durable stores of the source are kept separate, exactly as in the
  code: the LanceDB `pending_actions` table (inserted by `queue_action`,
  queried by the batch processor, never updated in the source) and the MongoDB
  `action_status` collection (upserted by `_update_action_status`, read by
  `_is_action_processed`).
-/

namespace Tweetly

/-- Python exceptions that the embedded code can raise. -/
inductive PyErr
  | valueError (msg : String)
  | keyError (key : String)
  | typeError (msg : String)
  | chainError (msg : String)
  deriving DecidableEq, Repr

instance {ε α : Type} [DecidableEq ε] [DecidableEq α] : DecidableEq (Except ε α) := fun a b =>
  match a, b with
  | .error e, .error f => decidable_of_iff (e = f) (by simp)
  | .ok x, .ok y => decidable_of_iff (x = y) (by simp)
  | .error _, .ok _ => isFalse (by simp)
  | .ok _, .error _ => isFalse (by simp)

theorem exceptBind_ok {ε α β : Type} (a : α) (f : α → Except ε β) :
    (Except.ok a >>= f) = f a := rfl

theorem exceptBind_err {ε α β : Type} (e : ε) (f : α → Except ε β) :
    ((Except.error e : Except ε α) >>= f) = Except.error e := rfl

/-- A Python number together with its dynamic type, as far as the embedded
code needs it: `int`, `float` and `decimal.Decimal` values (the numeric value
is modelled as a rational). -/
inductive PyNum
  | int (n : ℤ)
  | float (q : ℚ)
  | dec (q : ℚ)
  deriving DecidableEq, Repr

/-- The rational value of a `PyNum`. -/
def PyNum.val : PyNum → ℚ
  | .int n => (n : ℚ)
  | .float q => q
  | .dec q => q

/-- Python multiplication on `PyNum`.  `int` and `float` mix freely
(coercing to `float`), `Decimal` mixes with `int`, but `decimal.Decimal`
refuses binary arithmetic with `float`: `Decimal * float` raises
`TypeError` (CPython `decimal` module semantics). -/
def pyMul : PyNum → PyNum → Except PyErr PyNum
  | .int a, .int b => .ok (.int (a * b))
  | .int a, .float b => .ok (.float ((a : ℚ) * b))
  | .float a, .int b => .ok (.float (a * (b : ℚ)))
  | .float a, .float b => .ok (.float (a * b))
  | .dec a, .int b => .ok (.dec (a * (b : ℚ)))
  | .int a, .dec b => .ok (.dec ((a : ℚ) * b))
  | .dec a, .dec b => .ok (.dec (a * b))
  | .dec _, .float _ => .error (.typeError "unsupported operand types for *: Decimal and float")
  | .float _, .dec _ => .error (.typeError "unsupported operand types for *: float and Decimal")

/-- `Web3.from_wei(n, "ether")`: web3's `currency.from_wei` returns the
`int` `0` when the input is `0`, and otherwise the `decimal.Decimal`
`n / 10^18`. -/
def from_wei_ether (wei : ℕ) : PyNum :=
  if wei = 0 then .int 0 else .dec ((wei : ℚ) / 10 ^ 18)

/-- The floor of a rational, written as Euclidean division of the numerator
by the (positive) denominator so that it evaluates by kernel reduction. -/
def ratFloor (q : ℚ) : ℤ := q.num / (q.den : ℤ)

/-- `Web3.to_wei(x, "ether")`: the integer number of wei.  The inputs used by
the source are decimal-valued, for which the conversion is exact. -/
def to_wei_ether (q : ℚ) : ℤ := ratFloor (q * 10 ^ 18)

/-- Python `int(q)`: truncation toward zero (T-division of numerator by
denominator). -/
def pyTrunc (q : ℚ) : ℤ := Int.tdiv q.num (q.den : ℤ)

/-- Round to the nearest integer, ties to even — the rounding used by
Python's fixed-point string formatting. -/
def roundHalfEven (q : ℚ) : ℤ :=
  let f := ratFloor q
  let frac := q - (f : ℚ)
  if frac < 1 / 2 then f
  else if 1 / 2 < frac then f + 1
  else if f % 2 = 0 then f else f + 1

/-- Left-pad the decimal rendering of `m` with zeros to width 4. -/
def pad4 (m : ℕ) : String :=
  let s := toString m
  String.mk (List.replicate (4 - s.length) '0') ++ s

/-- Python `f"{x:.4f}"` on a non-negative value: four digits after the
decimal point, ties rounded to even. -/
def formatFixed4 (q : ℚ) : String :=
  let n := roundHalfEven (q * 10000)
  if n < 0 then
    "-" ++ toString (n.natAbs / 10000) ++ "." ++ pad4 (n.natAbs % 10000)
  else
    toString (n.toNat / 10000) ++ "." ++ pad4 (n.toNat % 10000)

/-- The string Python's f-string produces for an `Optional[str]`:
`None` prints as `"None"`.  Used by `_generate_action_id`, which reads
`action.get('action_type')` with no default. -/
def pyOptStr : Option String → String
  | some s => s
  | none => "None"

/-- `BlockchainService.ACTION_TYPES`: the closed enumeration mapping action
type names to their on-chain indices (backend_blockchain.py lines 38-49). -/
def ACTION_TYPES : List (String × ℕ) :=
  [("MESSAGE", 0), ("JOURNEY", 1), ("REFERRAL", 2), ("DAILY_CHECKIN", 3),
   ("STREAK_BONUS", 4), ("ACHIEVEMENT", 5), ("COMMUNITY_TASK", 6),
   ("QUALITY_BONUS", 7), ("VIRAL_CONTENT", 8), ("CUSTOM", 9)]

/-- The `action` dict passed to `queue_action`.  Fields read through
`dict.get` with a default in the source are `Option`s here, with the default
applied at each use site exactly as the source does.  `extra_data` stands for
the JSON-serialized payload. -/
structure ActionInput where
  wallet : String
  action_type : Option String
  base_amount : Option ℚ
  quality_score : Option ℚ
  extra_data : Option String
  deriving DecidableEq, Repr

/-- A row of the LanceDB `pending_actions` table (schema at
backend_blockchain.py lines 118-130).  `base_amount` is stored with `str()`
and read back with `float()`; the round-trip is value-preserving, so the
field carries the rational value. -/
structure PendingRow where
  action_id : String
  user_wallet : String
  action_type : String
  base_amount : ℚ
  quality_score : ℚ
  extra_data : String
  queued_at : ℕ
  status : String
  retry_count : ℕ
  deriving DecidableEq, Repr

/-- A document of the MongoDB `action_status` collection, upserted by
`_update_action_status`. -/
structure StatusDoc where
  status : String
  tx_hash : Option String
  updated_at : ℕ
  deriving DecidableEq, Repr

/-- An element of the in-memory fast-path deque `pending_contributions`:
the caller's action dict spread together with the derived `action_id` and
`queued_at` (backend_blockchain.py lines 163-168). -/
structure MemEntry where
  action : ActionInput
  action_id : String
  queued_at : ℕ
  deriving DecidableEq, Repr

/-- A row of the LanceDB `user_stats_cache` table (schema at
backend_blockchain.py lines 102-115).  Note: there is no `metadata`
column. -/
structure StatsRow where
  wallet : String
  total_earned : String
  total_words : ℤ
  total_characters : ℤ
  quality_score : ℚ
  journey_count : ℤ
  referral_count : ℤ
  current_streak : ℤ
  last_updated : ℕ
  cache_expiry : ℕ
  deriving DecidableEq, Repr

/-- A signed transaction as submitted through
`w3.eth.send_raw_transaction`; only the fields the claims talk about are
kept, plus the contract function invoked.  Fields irrelevant to a given
transaction kind keep their defaults. -/
structure Tx where
  kind : String
  nonce : ℕ
  to_user : String := ""
  action_type_idx : ℕ := 0
  amount_wei : ℤ := 0
  quality_bps : ℤ := 0
  action_id : String := ""
  extra : String := ""
  deriving DecidableEq, Repr

/-- The external chain, as seen through the chain client:
`tx_count` is what `w3.eth.get_transaction_count(backend, 'latest')`
returns — the number of *mined* transactions from the signer, which a raw
submission does not change — and `pool` collects the raw transactions
accepted by `send_raw_transaction`, in submission order. -/
structure ChainState where
  tx_count : ℕ
  pool : List Tx
  deriving DecidableEq, Repr

/-- Raw tuples returned by the reward contracts, consumed by
`_get_onchain_stats`: `token_stats` = `ContextlyToken.userStats`,
`game_*` = positions 1-3 of `registry.userGameStats`, `balance_wei` =
`balanceOf`, `staking_boost_bps` = `staking.getUserEarningsBoost`. -/
structure OnchainRaw where
  token_stats : List ℕ
  game_journeys : ℕ
  game_referrals : ℕ
  game_referral_earnings_wei : ℕ
  balance_wei : ℕ
  staking_boost_bps : ℕ
  deriving DecidableEq, Repr

/-- The stats dict built by `_get_onchain_stats`
(backend_blockchain.py lines 493-508). -/
structure Stats where
  wallet : String
  balance : String
  total_earned : String
  total_words : ℕ
  total_characters : ℕ
  quality_score : ℚ
  last_active : String
  contribution_days : ℕ
  current_streak : ℕ
  longest_streak : ℕ
  journey_count : ℕ
  referral_count : ℕ
  referral_earnings : String
  staking_boost : ℚ
  deriving DecidableEq, Repr

/-- A document of the MongoDB `journeys` collection (only the fields the
claims can observe). -/
structure JourneyDoc where
  journey_id : String
  wallet : String
  session_id : String
  blockchain_status : String
  deriving DecidableEq, Repr

/-- A document of the MongoDB `users` collection as used by
`record_referral`: the wallet together with its `referred_by` field. -/
structure UserDoc where
  wallet : String
  referred_by : Option String
  referral_code : Option String
  deriving DecidableEq, Repr

/-- The whole mutable state of the service and its stores. -/
structure SysState where
  pending_actions : List PendingRow
  action_status : List (String × StatusDoc)
  pending_contributions : List MemEntry
  user_stats_cache : List StatsRow
  journeys : List JourneyDoc
  users : List UserDoc
  chain : ChainState
  chain_reads : ℕ
  deriving DecidableEq, Repr

/-- External collaborators, as oracles: web3 address validation and
checksumming, `hashlib.sha256(...).hexdigest()`, the registry's
`actionRewards` view (`none` = the read raised), acceptance of a raw
transaction by the RPC node (`false` = `send_raw_transaction` raised), and
the raw on-chain stats per wallet. -/
structure Ext where
  is_address : String → Bool
  to_checksum : String → Except PyErr String
  sha256_hex : String → String
  action_rewards : ℕ → Option (ℕ × ℕ)
  submit_ok : Tx → Bool
  stats_raw : String → OnchainRaw

/-- Embeds `BlockchainService._generate_action_id`
(backend_blockchain.py lines 510-513): the sha256 hex digest, truncated to
16 characters, of `f"{action['wallet']}_{action.get('action_type')}_{datetime.now().timestamp()}"` —
note the raw current timestamp, not a time bucket. -/
def generate_action_id (ext : Ext) (a : ActionInput) (now : ℕ) : String :=
  let data := a.wallet ++ "_" ++ pyOptStr a.action_type ++ "_" ++ toString now
  (ext.sha256_hex data).take 16

/-- Embeds `BlockchainService._is_action_processed`
(backend_blockchain.py lines 515-522): a MongoDB `find_one` on
`action_status` for this `action_id` with status in
`{confirmed, processing}`. -/
def is_action_processed (st : SysState) (action_id : String) : Bool :=
  (st.action_status.filter fun p =>
     p.1 = action_id && (p.2.status = "confirmed" || p.2.status = "processing")) ≠ []

/-- Embeds `BlockchainService._estimate_earnings`
(backend_blockchain.py lines 524-547).  The body of the `try` is an
`Except` computation: `self.ACTION_TYPES[action_type]` raises `KeyError` on
an unknown type; the contract read may raise; and the multiplication chain
`base_reward * multiplier * (1 + quality_score)` follows Python's dynamic
numeric types, where `base_reward` is the `Decimal` (or int 0) returned by
`Web3.from_wei` and `multiplier = action_reward[1] / 10000` is a `float` —
so a non-zero `base_reward` raises `TypeError`.  The bare `except:` turns
any of these into the fallback `f"{base_amount * (1 + quality_score):.4f}"`.
The contract read itself goes through `_call_contract_method`, which is
absent from the repository; modelled from the spec (§6 `read_config`) as the
`action_rewards` oracle. -/
def estimate_earnings (ext : Ext) (a : ActionInput) : String :=
  let action_type := a.action_type.getD "MESSAGE"
  let base_amount := a.base_amount.getD 1
  let quality_score := a.quality_score.getD (1 / 2)
  let tryBody : Except PyErr String := do
    let idx ← match ACTION_TYPES.lookup action_type with
      | some i => Except.ok i
      | none => Except.error (.keyError action_type)
    let reward ← match ext.action_rewards idx with
      | some r => Except.ok r
      | none => Except.error (.chainError "actionRewards")
    let base_reward := from_wei_ether reward.1
    let multiplier : PyNum := .float ((reward.2 : ℚ) / 10000)
    let e1 ← pyMul base_reward multiplier
    let e2 ← pyMul e1 (.float (1 + quality_score))
    Except.ok (formatFixed4 e2.val)
  match tryBody with
  | .ok s => s
  | .error _ => formatFixed4 (base_amount * (1 + quality_score))

/-- The result dict of `queue_action`. -/
inductive QueueResult
  | alreadyProcessed
  | queued (action_id : String) (estimated_earnings : String) (position_in_queue : ℕ)
  deriving DecidableEq, Repr

/-- Embeds `BlockchainService.queue_action`
(backend_blockchain.py lines 132-178): validate the wallet format (raising
`ValueError` otherwise — and note that `action_type` is *not* validated
here), derive the action id, return `already_processed` if
`_is_action_processed`, otherwise append a `status='pending'`,
`retry_count=0` row to the LanceDB `pending_actions` table, append to the
in-memory `pending_contributions` deque under the batch lock, and answer
with the estimate and `len(self.pending_contributions)`. -/
def queue_action (ext : Ext) (st : SysState) (now : ℕ) (a : ActionInput) :
    Except PyErr (QueueResult × SysState) := do
  if ¬ ext.is_address a.wallet then
    Except.error (.valueError "Invalid wallet address")
  else
    let action_id := generate_action_id ext a now
    if is_action_processed st action_id then
      Except.ok (.alreadyProcessed, st)
    else
      let row : PendingRow :=
        { action_id := action_id
          user_wallet := a.wallet
          action_type := a.action_type.getD "MESSAGE"
          base_amount := a.base_amount.getD 0
          quality_score := a.quality_score.getD (1 / 2)
          extra_data := a.extra_data.getD ""
          queued_at := now
          status := "pending"
          retry_count := 0 }
      let entry : MemEntry := { action := a, action_id := action_id, queued_at := now }
      let st' := { st with
        pending_actions := st.pending_actions ++ [row]
        pending_contributions := st.pending_contributions ++ [entry] }
      let estimated := estimate_earnings ext a
      Except.ok (.queued action_id estimated st'.pending_contributions.length, st')

/-- Embeds `BlockchainService._update_action_status`
(backend_blockchain.py lines 423-437): a MongoDB upsert keyed by
`action_id` — note it writes to the separate `action_status` collection,
not to the `pending_actions` row the batch selector reads. -/
def update_action_status (docs : List (String × StatusDoc)) (action_id status : String)
    (tx_hash : Option String) (now : ℕ) : List (String × StatusDoc) :=
  let doc : StatusDoc := { status := status, tx_hash := tx_hash, updated_at := now }
  if (docs.filter fun p => p.1 = action_id) = [] then
    docs ++ [(action_id, doc)]
  else
    docs.map fun p => if p.1 = action_id then (action_id, doc) else p

/-- Modelled from the spec: `_increment_retry_count` is called at
backend_blockchain.py line 421 but is defined nowhere in the repository.
Per §4.3 of the spec ("increment `retry_count`, revert status to `pending`
(or `abandoned` if ceiling reached)" with a ceiling of 3) it bumps the
durable record's `retry_count` and sets its status accordingly; per §6 the
durable store supports in-place status/retry_count updates, so this acts on
the `pending_actions` rows the batch selector reads. -/
def increment_retry_count (rows : List PendingRow) (action_id : String) : List PendingRow :=
  rows.map fun r =>
    if r.action_id = action_id then
      { r with
        retry_count := r.retry_count + 1
        status := if 3 ≤ r.retry_count + 1 then "abandoned" else "pending" }
    else r

/-- The per-action data assembled by the first loop of
`_process_generic_action_batch` (backend_blockchain.py lines 377-383),
before any transaction is built: checksummed user, `ACTION_TYPES` index
(raising `KeyError` on an unknown type), wei amount, basis-point quality
score, action id and encoded extra data. -/
structure TxData where
  user : String
  action_type_idx : ℕ
  amount_wei : ℤ
  quality_bps : ℤ
  action_id : String
  extra : String
  deriving DecidableEq, Repr

/-- The first loop of `_process_generic_action_batch` for one row. -/
def buildTxData (ext : Ext) (r : PendingRow) : Except PyErr TxData := do
  let user ← ext.to_checksum r.user_wallet
  let idx ← match ACTION_TYPES.lookup r.action_type with
    | some i => Except.ok i
    | none => Except.error (.keyError r.action_type)
  Except.ok
    { user := user
      action_type_idx := idx
      amount_wei := to_wei_ether r.base_amount
      quality_bps := pyTrunc (r.quality_score * 10000)
      action_id := r.action_id
      extra := r.extra_data }

/-- The whole first loop of `_process_generic_action_batch`
(backend_blockchain.py lines 377-383): assemble the per-action data in
order, aborting at the first exception. -/
def buildAll (ext : Ext) : List PendingRow → Except PyErr (List TxData)
  | [] => Except.ok []
  | r :: rest => do
    let d ← buildTxData ext r
    let ds ← buildAll ext rest
    Except.ok (d :: ds)

/-- The `processAction` transaction built for `d` with the given nonce
(backend_blockchain.py lines 390-403; gas fields, which no claim observes,
are elided). -/
def buildTx (d : TxData) (nonce : ℕ) : Tx :=
  { kind := "processAction"
    nonce := nonce
    to_user := d.user
    action_type_idx := d.action_type_idx
    amount_wei := d.amount_wei
    quality_bps := d.quality_bps
    action_id := d.action_id
    extra := d.extra }

/-- The opaque transaction hash string (`tx_hash.hex()`), modelled from the
nonce, which determines it uniquely within this embedding. -/
def txHashOf (t : Tx) : String := "0xtx" ++ toString t.nonce

/-- The submission loop of `_process_generic_action_batch`
(backend_blockchain.py lines 389-415): for index `i`, sign and submit with
nonce `nonce + i`, then upsert the action's status to `processing` with the
transaction hash.  A submission failure raises, aborting the loop; the state
mutated by the earlier iterations persists. -/
def submitLoop (ext : Ext) (nonce : ℕ) (now : ℕ) :
    List TxData → ℕ → SysState → SysState × Option PyErr
  | [], _, st => (st, none)
  | d :: rest, i, st =>
    let tx := buildTx d (nonce + i)
    if ext.submit_ok tx then
      let st' := { st with
        chain := { st.chain with pool := st.chain.pool ++ [tx] }
        action_status :=
          update_action_status st.action_status d.action_id "processing"
            (some (txHashOf tx)) now }
      submitLoop ext nonce now rest (i + 1) st'
    else
      (st, some (.chainError "send_raw_transaction"))

/-- Embeds `BlockchainService._process_generic_action_batch`
(backend_blockchain.py lines 366-421).  The whole body sits in one
`try/except`: the data-assembly loop runs first (a failure there means
nothing was submitted), then `nonce = w3.eth.get_transaction_count(...)` is
read once, then the submission loop runs.  Any exception lands in the
`except` block, which calls `_increment_retry_count` for *every* action of
the group — including those already submitted — and the remaining actions
are not submitted. -/
def incrementAllRetries (actions : List PendingRow) (rows : List PendingRow) :
    List PendingRow :=
  actions.foldl (fun acc a => increment_retry_count acc a.action_id) rows

/-- See the comment on `incrementAllRetries` just above: the `try/except`
structure of `_process_generic_action_batch` with the whole-group retry
increment in the `except` block. -/
def process_generic_action_batch (ext : Ext) (now : ℕ) (actions : List PendingRow)
    (st : SysState) : SysState :=
  let incAll (s : SysState) : SysState :=
    { s with pending_actions := incrementAllRetries actions s.pending_actions }
  match buildAll ext actions with
  | .error _ => incAll st
  | .ok datas =>
    let nonce := st.chain.tx_count
    match submitLoop ext nonce now datas 0 st with
    | (st', none) => st'
    | (st', some _) => incAll st'

/-- Modelled from the spec: `_process_message_batch` is called at
backend_blockchain.py line 360 but is defined nowhere in the repository.
Per §4.3 the specialized handlers follow the same per-action
build/nonce/sign/submit discipline as the generic handler, so it is
modelled as that handler. -/
def process_message_batch (ext : Ext) (now : ℕ) (actions : List PendingRow)
    (st : SysState) : SysState :=
  process_generic_action_batch ext now actions st

/-- Modelled from the spec: `_process_journey_batch` is called at
backend_blockchain.py line 362 but is defined nowhere in the repository;
modelled like `_process_message_batch`. -/
def process_journey_batch (ext : Ext) (now : ℕ) (actions : List PendingRow)
    (st : SysState) : SysState :=
  process_generic_action_batch ext now actions st

/-- The keys of the `grouped` dict of `_process_batch_from_lance` in
iteration order: Python dicts iterate in insertion order, i.e. first
occurrence of each `action_type`. -/
def groupKeys (actions : List PendingRow) : List String :=
  actions.foldl (fun ks a => if a.action_type ∈ ks then ks else ks ++ [a.action_type]) []

/-- The group of `ty`-typed actions, in their order within the batch. -/
def groupOf (actions : List PendingRow) (ty : String) : List PendingRow :=
  actions.filter fun a => a.action_type = ty

/-- Embeds `BlockchainService._process_batch_from_lance`
(backend_blockchain.py lines 347-364): group the pulled rows by
`action_type` and dispatch each group to its handler, `MESSAGE` and
`JOURNEY` to the specialized handlers and everything else to the generic
one. -/
def process_batch_from_lance (ext : Ext) (now : ℕ) (actions : List PendingRow)
    (st : SysState) : SysState :=
  (groupKeys actions).foldl
    (fun s ty =>
      let group := groupOf actions ty
      if ty = "MESSAGE" then process_message_batch ext now group s
      else if ty = "JOURNEY" then process_journey_batch ext now group s
      else process_generic_action_batch ext now group s)
    st

/-- One cycle of `BlockchainService._batch_processor`
(backend_blockchain.py lines 328-345): pull up to 50 `pending_actions` rows
with `status = 'pending' AND retry_count < 3` and, if any, process them;
the `asyncio.sleep` between cycles is the passage of time between
applications of this function. -/
def batchCycle (ext : Ext) (now : ℕ) (st : SysState) : SysState :=
  let pending :=
    (st.pending_actions.filter fun r => r.status = "pending" && r.retry_count < 3).take 50
  if pending = [] then st else process_batch_from_lance ext now pending st

/-- Trim trailing zero characters. -/
def trimZeros (s : List Char) : List Char :=
  (s.reverse.dropWhile fun c => c = '0').reverse

/-- The string `str(Web3.from_wei(wei, "ether"))`: the decimal rendering of
`wei / 10^18` (integer when exact, otherwise with the fractional digits and
trailing zeros dropped). -/
def showEther (wei : ℕ) : String :=
  if wei % 10 ^ 18 = 0 then toString (wei / 10 ^ 18)
  else
    let fracDigits := toString (wei % 10 ^ 18)
    let padded := List.replicate (18 - fracDigits.length) '0' ++ fracDigits.data
    toString (wei / 10 ^ 18) ++ "." ++ String.mk (trimZeros padded)

/-- The `i`-th element of `token_stats`, defaulting to 0 (the source indexes
a fixed-length contract tuple). -/
def tsAt (raw : OnchainRaw) (i : ℕ) : ℕ := raw.token_stats.getD i 0

/-- Embeds `BlockchainService._get_onchain_stats`
(backend_blockchain.py lines 471-508).  The four contract reads go through
`_call_contract_method`, which is absent from the repository; modelled from
the spec (§6 `read_balance` / `read_user_ledger_stats`) as the `stats_raw`
oracle.  `datetime.fromtimestamp(...).isoformat()` is rendered as the
timestamp's decimal string. -/
def get_onchain_stats (ext : Ext) (wallet : String) : Stats :=
  let raw := ext.stats_raw wallet
  { wallet := wallet
    balance := showEther raw.balance_wei
    total_earned := showEther (tsAt raw 0)
    total_words := tsAt raw 1
    total_characters := tsAt raw 2
    quality_score := (tsAt raw 3 : ℚ) / 100
    last_active := toString (tsAt raw 4)
    contribution_days := tsAt raw 5
    current_streak := tsAt raw 6
    longest_streak := tsAt raw 7
    journey_count := raw.game_journeys
    referral_count := raw.game_referrals
    referral_earnings := showEther raw.game_referral_earnings_wei
    staking_boost := (raw.staking_boost_bps : ℚ) / 10000 }

/-- The columns of the `user_stats_cache` table, i.e. the keys present in
each dict that `to_list()` yields for it. -/
def statsCacheColumns : List String :=
  ["wallet", "total_earned", "total_words", "total_characters", "quality_score",
   "journey_count", "referral_count", "current_streak", "last_updated", "cache_expiry"]

/-- Python subscript `row[key]` on a `user_stats_cache` row: present keys
answer `()`, an absent key raises `KeyError` — the table has no `metadata`
column, so `row['metadata']` raises. -/
def statsRowSubscript (_r : StatsRow) (key : String) : Except PyErr Unit :=
  if key ∈ statsCacheColumns then Except.ok () else Except.error (.keyError key)

/-- Embeds `BlockchainService.get_user_stats`
(backend_blockchain.py lines 439-469): checksum the wallet, filter the
cache table on `wallet = W AND cache_expiry > now` with `limit(1)`; on a
hit, return `json.loads(cached[0]['metadata'])` — which subscripts a column
the schema does not have; on a miss, fetch the authoritative on-chain
stats (counted in `chain_reads`), append a cache row with a 5-minute
(300-second) expiry, and return the fresh stats. -/
def get_user_stats (ext : Ext) (st : SysState) (now : ℕ) (wallet : String) :
    Except PyErr (Stats × SysState) := do
  let wallet ← ext.to_checksum wallet
  let cached :=
    (st.user_stats_cache.filter fun r => r.wallet = wallet && now < r.cache_expiry).take 1
  match cached with
  | row :: _ => do
    let _ ← statsRowSubscript row "metadata"
    Except.error (.keyError "unreachable: json.loads of a missing column")
  | [] =>
    let stats := get_onchain_stats ext wallet
    let newRow : StatsRow :=
      { wallet := wallet
        total_earned := stats.total_earned
        total_words := stats.total_words
        total_characters := stats.total_characters
        quality_score := stats.quality_score
        journey_count := stats.journey_count
        referral_count := stats.referral_count
        current_streak := stats.current_streak
        last_updated := now
        cache_expiry := now + 300 }
    let st' := { st with
      user_stats_cache := st.user_stats_cache ++ [newRow]
      chain_reads := st.chain_reads + 1 }
    Except.ok (stats, st')

/-- The input to `process_journey` (backend_blockchain.py lines 180-215),
restricted to the fields the embedded code reads. -/
structure JourneyInput where
  wallet : String
  session_id : String
  quality_score : Option ℚ
  screenshot_count : ℕ
  deriving DecidableEq, Repr

/-- The JOURNEY action dict built by `process_journey`
(backend_blockchain.py lines 185-197): base 50, default quality 0.7; the
`extra_data` JSON payload is rendered as the journey id. -/
def journeyAction (jd : JourneyInput) (now : ℕ) : ActionInput :=
  { wallet := jd.wallet
    action_type := some "JOURNEY"
    base_amount := some 50
    quality_score := some (jd.quality_score.getD (7 / 10))
    extra_data := some ("journey:journey_" ++ jd.session_id ++ "_" ++ toString now) }

/-- Embeds `BlockchainService.process_journey`
(backend_blockchain.py lines 180-215): build the JOURNEY action, queue it,
then insert the journey document. -/
def process_journey (ext : Ext) (st : SysState) (now : ℕ) (jd : JourneyInput) :
    Except PyErr (QueueResult × SysState) := do
  let journey_id := "journey_" ++ jd.session_id ++ "_" ++ toString now
  let (res, st') ← queue_action ext st now (journeyAction jd now)
  let doc : JourneyDoc :=
    { journey_id := journey_id
      wallet := jd.wallet
      session_id := jd.session_id
      blockchain_status := "pending" }
  Except.ok (res, { st' with journeys := st'.journeys ++ [doc] })

/-- The result of `record_referral` (an error-status dict or a success dict
with the transaction hash). -/
inductive ReferralResult
  | alreadyReferred
  | success (tx_hash : String)
  deriving DecidableEq, Repr

/-- The 100-CTXT REFERRAL bonus action queued for the referrer by
`record_referral` (backend_blockchain.py lines 256-266). -/
def referralBonus (referrer referee : String) : ActionInput :=
  { wallet := referrer
    action_type := some "REFERRAL"
    base_amount := some 100
    quality_score := some 1
    extra_data := some ("referee:" ++ referee) }

/-- The final step of `record_referral` after the on-chain submission and
the user-document update: queue the referrer's bonus and answer success
(backend_blockchain.py lines 256-272). -/
def referralQueueTail (ext : Ext) (st2 : SysState) (now : ℕ)
    (referrer referee : String) (tx : Tx) :
    Except PyErr (ReferralResult × SysState) := do
  let (_, st3) ← queue_action ext st2 now (referralBonus referrer referee)
  Except.ok (.success (txHashOf tx), st3)

/-- The transaction-submitting tail of `record_referral`
(backend_blockchain.py lines 231-272). -/
def recordReferralTx (ext : Ext) (st : SysState) (now : ℕ)
    (referrer referee referral_code : String) :
    Except PyErr (ReferralResult × SysState) :=
  let tx : Tx := { kind := "recordReferral", nonce := st.chain.tx_count,
                   to_user := referee, extra := referral_code }
  if ¬ ext.submit_ok tx then
    Except.error (.chainError "send_raw_transaction")
  else
    let st1 := { st with chain := { st.chain with pool := st.chain.pool ++ [tx] } }
    let st2 := { st1 with
      users := st1.users.map fun u =>
        if u.wallet = referee then
          { u with referred_by := some referrer, referral_code := some referral_code }
        else u }
    referralQueueTail ext st2 now referrer referee tx

/-- Embeds `BlockchainService.record_referral`
(backend_blockchain.py lines 217-272): checksum both wallets (raising on a
malformed one), refuse if the referee already has a referrer, build and
submit the `recordReferral` transaction with the signer's current
transaction count as nonce (raising on submission failure), set the
referee's `referred_by` (a no-upsert update: a no-op when the user document
is absent), and queue the 100-CTXT REFERRAL bonus for the referrer. -/
def record_referral (ext : Ext) (st : SysState) (now : ℕ)
    (referrer_wallet referee_wallet referral_code : String) :
    Except PyErr (ReferralResult × SysState) := do
  let referrer ← ext.to_checksum referrer_wallet
  let referee ← ext.to_checksum referee_wallet
  let existing := (st.users.filter fun u => u.wallet = referee).take 1
  match existing with
  | u :: _ =>
    if (u.referred_by.getD "") ≠ "" then
      Except.ok (.alreadyReferred, st)
    else
      recordReferralTx ext st now referrer referee referral_code
  | [] => recordReferralTx ext st now referrer referee referral_code

/-- The 5-CTXT DAILY_CHECKIN action built by `process_daily_checkin`
(backend_blockchain.py lines 291-300). -/
def checkinAction (wallet : String) (now : ℕ) : ActionInput :=
  { wallet := wallet
    action_type := some "DAILY_CHECKIN"
    base_amount := some 5
    quality_score := some 1
    extra_data := some ("timestamp:" ++ toString now) }

/-- Embeds `BlockchainService.process_daily_checkin`
(backend_blockchain.py lines 274-300): consult the `user_stats_cache` table
for an unexpired row for this wallet (the source reuses the stats cache as
its check-in marker); if one exists answer `already_checked_in` (`none`
here), otherwise queue the 5-CTXT DAILY_CHECKIN action with quality 1.0. -/
def process_daily_checkin (ext : Ext) (st : SysState) (now : ℕ) (wallet : String) :
    Except PyErr (Option QueueResult × SysState) := do
  let today :=
    (st.user_stats_cache.filter fun r => r.wallet = wallet && now < r.cache_expiry).take 1
  if today ≠ [] then
    Except.ok (none, st)
  else
    let (res, st') ← queue_action ext st now (checkinAction wallet now)
    Except.ok (some res, st')

/-- Embeds `BlockchainService.grant_achievement`
(backend_blockchain.py lines 302-326): build, sign and submit the
`grantAchievement` transaction with the signer's current transaction count
as nonce; raises on a malformed wallet or a rejected submission. -/
def grant_achievement (ext : Ext) (st : SysState) (wallet achievement_id : String) :
    Except PyErr (String × SysState) := do
  let w ← ext.to_checksum wallet
  let tx : Tx := { kind := "grantAchievement", nonce := st.chain.tx_count,
                   to_user := w, extra := achievement_id }
  if ¬ ext.submit_ok tx then
    Except.error (.chainError "send_raw_transaction")
  else
    Except.ok (txHashOf tx,
      { st with chain := { st.chain with pool := st.chain.pool ++ [tx] } })

/-- The operations of the service: everything in
`backend_blockchain.py` that can touch the shared state.  (A grep over the
repository shows `pending_contributions` is referenced nowhere outside
`__init__` and `queue_action`.) -/
inductive ServiceOp
  | queue (now : ℕ) (a : ActionInput)
  | journey (now : ℕ) (jd : JourneyInput)
  | referral (now : ℕ) (referrer referee code : String)
  | checkin (now : ℕ) (wallet : String)
  | achievement (wallet achievement_id : String)
  | stats (now : ℕ) (wallet : String)
  | batch (now : ℕ)
  deriving Repr

/-- The state reached after one service operation: the new state on normal
return, and the state as mutated so far when the operation raises (the
embedded operations only raise before their first mutation, except the
batch processor, which catches its own errors). -/
def applyOp (ext : Ext) (st : SysState) : ServiceOp → SysState
  | .queue now a =>
    match queue_action ext st now a with
    | .ok (_, st') => st'
    | .error _ => st
  | .journey now jd =>
    match process_journey ext st now jd with
    | .ok (_, st') => st'
    | .error _ => st
  | .referral now r e c =>
    match record_referral ext st now r e c with
    | .ok (_, st') => st'
    | .error _ => st
  | .checkin now w =>
    match process_daily_checkin ext st now w with
    | .ok (_, st') => st'
    | .error _ => st
  | .achievement w aid =>
    match grant_achievement ext st w aid with
    | .ok (_, st') => st'
    | .error _ => st
  | .stats now w =>
    match get_user_stats ext st now w with
    | .ok (_, st') => st'
    | .error _ => st
  | .batch now => batchCycle ext now st

/-- A whole run of service operations, in order. -/
def applyOps (ext : Ext) (st : SysState) (ops : List ServiceOp) : SysState :=
  ops.foldl (applyOp ext) st

/-- The empty initial state (fresh tables and deque; the chain is a
parameter of the scenarios that need it). -/
def SysState.empty : SysState :=
  { pending_actions := []
    action_status := []
    pending_contributions := []
    user_stats_cache := []
    journeys := []
    users := []
    chain := { tx_count := 0, pool := [] }
    chain_reads := 0 }

/-! ## Off-chain accrual ledger (`backend.py`, `update_user_token_count`) -/

/-- Look a key up in a Python dict, modelled as an association list with
distinct keys. -/
def dictGet : List (String × ℕ) → String → Option ℕ
  | [], _ => none
  | p :: rest, k => if p.1 = k then some p.2 else dictGet rest k

/-- `d[k] = d.get(k, 0) + v` on a Python dict: update in place, inserting
the key at the end if absent (Python dicts keep insertion order). -/
def dictAdd : List (String × ℕ) → String → ℕ → List (String × ℕ)
  | [], k, v => [(k, v)]
  | p :: rest, k, v => if p.1 = k then (p.1, p.2 + v) :: rest else p :: dictAdd rest k v

theorem dictGet_dictAdd : ∀ (m : List (String × ℕ)) (k : String) (v : ℕ),
    dictGet (dictAdd m k v) k = some ((dictGet m k).getD 0 + v) := by
  intro m k v
  induction m with
  | nil => simp [dictGet, dictAdd]
  | cons p rest ih =>
    by_cases h : p.1 = k
    · simp [dictGet, dictAdd, h]
    · simp [dictGet, dictAdd, h, ih]

/-- The per-wallet record held in `user_cache` (`backend.py` line 91,
`wallet -> user_data`), restricted to the fields `update_user_token_count`
touches.  Fields read with `dict.get` defaults are `Option`s. -/
structure UserRecord where
  total_tokens : Option ℕ
  tokens_by_platform : Option (List (String × ℕ))
  tokens_by_role : Option (List (String × ℕ))
  daily_tokens : Option (List (String × ℕ))
  last_token_update : Option String
  deriving DecidableEq, Repr

/-- The `token_metrics` dict passed to `update_user_token_count`. -/
structure TokenMetrics where
  platform : Option String
  total_tokens : Option ℕ
  deriving DecidableEq, Repr

/-- `user_cache[wallet]`-style lookup (`wallet in user_cache` /
`user_cache[wallet]`). -/
def cacheLookup (cache : List (String × UserRecord)) (wallet : String) : Option UserRecord :=
  (cache.filter fun p => p.1 = wallet).head?.map Prod.snd

/-- The in-place mutation of the user record performed by the body of
`update_user_token_count` (`backend.py` lines 1189-1208): the four
additive increments and the timestamp. -/
def accrueUpdate (user : UserRecord) (today nowIso platform : String) (tokens : ℕ)
    (role : String) : UserRecord :=
  let user1 := { user with total_tokens := some (user.total_tokens.getD 0 + tokens) }
  let user2 := { user1 with
    tokens_by_platform := some (dictAdd (user1.tokens_by_platform.getD []) platform tokens) }
  let user3 := { user2 with
    tokens_by_role :=
      some (dictAdd (user2.tokens_by_role.getD [("user", 0), ("assistant", 0)]) role tokens) }
  let user4 := { user3 with
    daily_tokens := some (dictAdd (user3.daily_tokens.getD []) today tokens) }
  { user4 with last_token_update := some nowIso }

/-- Embeds `update_user_token_count` (`backend.py` lines 1178-1216): when
the wallet is absent from `user_cache` it logs a warning and returns `None`
without touching anything; otherwise it applies `accrueUpdate` — the four
additive increments and the timestamp — writes the record back and returns
it.  `today` is the ISO date of the current day and `nowIso` the ISO
timestamp. -/
def update_user_token_count (cache : List (String × UserRecord))
    (today nowIso : String) (wallet : String) (token_metrics : TokenMetrics)
    (role : String) : List (String × UserRecord) × Option UserRecord :=
  match cacheLookup cache wallet with
  | none => (cache, none)
  | some user =>
    let platform := token_metrics.platform.getD "unknown"
    let tokens := token_metrics.total_tokens.getD 0
    let user5 := accrueUpdate user today nowIso platform tokens role
    (cache.map fun p => if p.1 = wallet then (wallet, user5) else p, some user5)

/-! ## Concrete instantiations of the external oracles

The scenarios below fix the external collaborators to concrete functions.
Nothing in them depends on any property of the real collaborators beyond
being functions: every string passes address validation, checksumming is
the identity, the hash is the identity (each scenario submits either one
event or the same event twice, so only functionality of the digest
matters), configuration reads fail, submissions are accepted, and on-chain
stats are all zero.  Scenario-specific deviations are record updates. -/

def rawZero : OnchainRaw :=
  { token_stats := [0, 0, 0, 0, 0, 0, 0, 0]
    game_journeys := 0
    game_referrals := 0
    game_referral_earnings_wei := 0
    balance_wei := 0
    staking_boost_bps := 0 }

def extPlain : Ext :=
  { is_address := fun _ => true
    to_checksum := fun w => Except.ok w
    sha256_hex := fun s => s
    action_rewards := fun _ => none
    submit_ok := fun _ => true
    stats_raw := fun _ => rawZero }

/-- Is the result of `queue_action` a normal return with status `queued`? -/
def isQueued : Except PyErr (QueueResult × SysState) → Bool
  | .ok (.queued _ _ _, _) => true
  | _ => false

/-- The state component of a `queue_action`-shaped result, with a default
for the raising case. -/
def stateOf (dflt : SysState) : Except PyErr (QueueResult × SysState) → SysState
  | .ok (_, s) => s
  | .error _ => dflt

/-- The `position_in_queue` of a `queued` result. -/
def positionOf : Except PyErr (QueueResult × SysState) → Option ℕ
  | .ok (.queued _ _ p, _) => some p
  | _ => none

/-- Did the computation return normally? -/
def exceptOk {ε α : Type} : Except ε α → Bool
  | .ok _ => true
  | .error _ => false

/-- Evaluation lemma for `formatFixed4` at arguments whose product with
10000 is a natural number (all uses below): the rounding is exact. -/
theorem formatFixed4_eval (q : ℚ) (n : ℕ) (h : q * 10000 = (n : ℚ)) :
    formatFixed4 q = toString (n / 10000) ++ "." ++ pad4 (n % 10000) := by
  simp only [formatFixed4, roundHalfEven, ratFloor, h, Rat.num_natCast, Rat.den_natCast,
    Nat.cast_one, Int.ediv_one, Int.cast_natCast, sub_self]
  norm_num

/-! ## C1 -/

def c1Action : ActionInput :=
  { wallet := "0xWalletA"
    action_type := some "DAILY_CHECKIN"
    base_amount := some 5
    quality_score := some 1
    extra_data := none }

def c1St1 : SysState :=
  stateOf SysState.empty (queue_action extPlain SysState.empty 1000 c1Action)

/-- C1, counterexample.  The same logical contribution event — same wallet,
same action type, submitted at the very same timestamp, so the derived
`action_id` is literally identical — is queued twice: the second
`queue_action` returns `queued`, not `already_processed`, and two pending
records for the one logical event exist afterwards.  (`queue_action` never
writes to the `action_status` store that `_is_action_processed` consults;
only the batch processor does, later.) -/
theorem c1_counterexample :
    isQueued (queue_action extPlain SysState.empty 1000 c1Action) = true ∧
    c1St1.pending_actions.map PendingRow.action_id =
      [generate_action_id extPlain c1Action 1000] ∧
    isQueued (queue_action extPlain c1St1 1000 c1Action) = true ∧
    (stateOf SysState.empty (queue_action extPlain c1St1 1000 c1Action)).pending_actions.map
        PendingRow.action_id =
      [generate_action_id extPlain c1Action 1000, generate_action_id extPlain c1Action 1000] := by
  decide

/-- C1, amended.  The derived `action_id` incorporates the exact submission
timestamp, not a time bucket: it is stable exactly across calls that share
wallet, `action_type` and timestamp.  And even with an identical
`action_id`, a repeat submission returns `already_processed` only when the
status store already records the id as `processing` or `confirmed` (which
only the batch processor writes); otherwise the second call returns
`queued` and appends a second record for the same logical event. -/
theorem c1_amended :
    (∀ (ext : Ext) (a a' : ActionInput) (now : ℕ),
        a.wallet = a'.wallet → a.action_type = a'.action_type →
        generate_action_id ext a now = generate_action_id ext a' now) ∧
    (∀ (ext : Ext) (st : SysState) (now : ℕ) (a : ActionInput),
        ext.is_address a.wallet = true →
        is_action_processed st (generate_action_id ext a now) = false →
        isQueued (queue_action ext st now a) = true ∧
        (stateOf st (queue_action ext st now a)).pending_actions.length
          = st.pending_actions.length + 1) := by
  constructor
  · intro ext a a' now hw ht
    unfold generate_action_id
    rw [hw, ht]
  · intro ext st now a haddr hproc
    unfold queue_action
    simp [haddr, hproc, isQueued, stateOf]

def c1ActionOther : ActionInput := { c1Action with base_amount := some 7 }

/-- Witness for `c1_amended` at concrete inputs. -/
theorem c1_amended_witness :
    generate_action_id extPlain c1Action 1000 = generate_action_id extPlain c1ActionOther 1000 ∧
    (isQueued (queue_action extPlain SysState.empty 1000 c1Action) = true ∧
      (stateOf SysState.empty
          (queue_action extPlain SysState.empty 1000 c1Action)).pending_actions.length
        = SysState.empty.pending_actions.length + 1) :=
  ⟨c1_amended.1 extPlain c1Action c1ActionOther 1000 rfl rfl,
   c1_amended.2 extPlain SysState.empty 1000 c1Action rfl (by decide)⟩

/-! ## C4 -/

/-- C4: a `queue_action` call whose derived `action_id` is already recorded
as `confirmed` or `processing` returns `already_processed` with the state
untouched — no durable record is inserted and nothing is appended to the
in-memory fast-path queue. -/
theorem c4_already_processed_no_writes :
    ∀ (ext : Ext) (st : SysState) (now : ℕ) (a : ActionInput),
      ext.is_address a.wallet = true →
      is_action_processed st (generate_action_id ext a now) = true →
      queue_action ext st now a = Except.ok (.alreadyProcessed, st) := by
  intro ext st now a haddr hproc
  unfold queue_action
  simp [haddr, hproc]

def c4Action : ActionInput :=
  { wallet := "0xW"
    action_type := some "MESSAGE"
    base_amount := some 1
    quality_score := some 1
    extra_data := none }

def c4St : SysState :=
  { SysState.empty with
    action_status := [("0xW_MESSAGE_5", { status := "processing", tx_hash := none, updated_at := 0 })] }

/-- Witness for `c4_already_processed_no_writes`: the identity hash of
`"0xW_MESSAGE_5"` is 13 characters, so the derived id is the full string,
which `c4St` already records as `processing`. -/
theorem c4_witness :
    queue_action extPlain c4St 5 c4Action = Except.ok (.alreadyProcessed, c4St) :=
  c4_already_processed_no_writes extPlain c4St 5 c4Action rfl (by decide)

/-! ## C9 -/

def c9Bogus : ActionInput :=
  { wallet := "0xValidWallet"
    action_type := some "BOGUS"
    base_amount := some 3
    quality_score := some 1
    extra_data := none }

/-- C9, counterexample.  An action whose `action_type` is outside the
closed enumeration is *not* rejected by `queue_action`: with a valid wallet
it is accepted, durably recorded and appended to the fast-path queue. -/
theorem c9_counterexample :
    (ACTION_TYPES.lookup "BOGUS" = none) ∧
    isQueued (queue_action extPlain SysState.empty 1 c9Bogus) = true ∧
    (stateOf SysState.empty (queue_action extPlain SysState.empty 1 c9Bogus)).pending_actions.map
        PendingRow.action_type = ["BOGUS"] ∧
    (stateOf SysState.empty
        (queue_action extPlain SysState.empty 1 c9Bogus)).pending_contributions.length = 1 := by
  decide

/-- C9, amended.  `queue_action` performs only wallet-format validation
synchronously: a malformed wallet raises `ValueError` before anything is
written (the error return carries no state change, mirroring the Python
exception propagating ahead of both writes).  `action_type` is not
validated: any type string, enumerated or not, is queued. -/
theorem c9_amended :
    (∀ (ext : Ext) (st : SysState) (now : ℕ) (a : ActionInput),
        ext.is_address a.wallet = false →
        queue_action ext st now a = Except.error (.valueError "Invalid wallet address") ∧
        applyOp ext st (.queue now a) = st) ∧
    (∀ (ext : Ext) (st : SysState) (now : ℕ) (a : ActionInput),
        ext.is_address a.wallet = true →
        is_action_processed st (generate_action_id ext a now) = false →
        isQueued (queue_action ext st now a) = true) := by
  constructor
  · intro ext st now a haddr
    have herr : queue_action ext st now a = Except.error (.valueError "Invalid wallet address") := by
      unfold queue_action
      simp [haddr]
    exact ⟨herr, by simp [applyOp, herr]⟩
  · intro ext st now a haddr hproc
    unfold queue_action
    simp [haddr, hproc, isQueued]

def extNoAddr : Ext := { extPlain with is_address := fun _ => false }

/-- Witness for `c9_amended` at concrete inputs. -/
theorem c9_amended_witness :
    (queue_action extNoAddr SysState.empty 1 c9Bogus
        = Except.error (.valueError "Invalid wallet address") ∧
      applyOp extNoAddr SysState.empty (.queue 1 c9Bogus) = SysState.empty) ∧
    isQueued (queue_action extPlain SysState.empty 1 c9Bogus) = true :=
  ⟨c9_amended.1 extNoAddr SysState.empty 1 c9Bogus rfl,
   c9_amended.2 extPlain SysState.empty 1 c9Bogus rfl (by decide)⟩

/-! ## C5 -/

def c5Ext : Ext :=
  { extPlain with
    action_rewards := fun idx => if idx = 3 then some (10 * 10 ^ 18, 15000) else none }

def c5Action : ActionInput :=
  { wallet := "0xW"
    action_type := some "DAILY_CHECKIN"
    base_amount := some 5
    quality_score := some (4 / 5)
    extra_data := none }

/-- C5: evaluation of `_estimate_earnings` at the spec's own example.  With
`actionRewards(DAILY_CHECKIN) = (10 ether, 15000)` — i.e. `base_reward=10`,
`multiplier=1.5` — and `quality_score=0.8`, the estimate is *not* the
formula value `27.0`: the `Decimal` returned by `Web3.from_wei` cannot be
multiplied by the `float` multiplier, the resulting `TypeError` is
swallowed by the bare `except:`, and the call falls back to
`base_amount * (1 + quality_score) = 9.0` — with no provisional flag
distinguishing it from a formula-path result. -/
theorem c5_code_evaluation :
    estimate_earnings c5Ext c5Action = "9.0000" ∧
    estimate_earnings c5Ext c5Action ≠ "27.0000" ∧
    pyMul (from_wei_ether (10 * 10 ^ 18)) (.float ((15000 : ℚ) / 10000))
      = Except.error (.typeError "unsupported operand types for *: Decimal and float") := by
  have hfb : estimate_earnings c5Ext c5Action = formatFixed4 ((5 : ℚ) * (1 + 4 / 5)) := rfl
  have h9 : estimate_earnings c5Ext c5Action = "9.0000" := by
    rw [hfb, formatFixed4_eval ((5 : ℚ) * (1 + 4 / 5)) 90000 (by norm_num)]
    decide
  refine ⟨h9, by rw [h9]; decide, by decide⟩

/-! ## C6 -/

/-- Did `get_user_stats` return normally? -/
def statsIsOk : Except PyErr (Stats × SysState) → Bool
  | .ok _ => true
  | .error _ => false

/-- The state component of a `get_user_stats` result, with a default for
the raising case. -/
def statsStateOf (dflt : SysState) : Except PyErr (Stats × SysState) → SysState
  | .ok (_, s) => s
  | .error _ => dflt

def c6St1 : SysState :=
  statsStateOf SysState.empty (get_user_stats extPlain SysState.empty 0 "0xW")

/-- C6: evaluation of `get_user_stats` on two consecutive calls for one
wallet.  The first call (empty cache) performs exactly one authoritative
ledger read and populates a cache row with a 300-second expiry.  The
second call, 60 seconds later and well within the TTL, *hits* the cache —
and then raises `KeyError('metadata')`, because the hit path returns
`json.loads(cached[0]['metadata'])` but the `user_stats_cache` schema has
no `metadata` column (and the population path stores none).  The cached
stats can never be served. -/
theorem c6_code_evaluation :
    statsIsOk (get_user_stats extPlain SysState.empty 0 "0xW") = true ∧
    c6St1.chain_reads = 1 ∧
    c6St1.user_stats_cache.map StatsRow.cache_expiry = [300] ∧
    c6St1.user_stats_cache.map StatsRow.wallet = ["0xW"] ∧
    get_user_stats extPlain c6St1 60 "0xW" = Except.error (.keyError "metadata") := by
  decide

/-! ## C2 -/

/-- The transactions the submission loop builds for `datas`, numbering
nonces from `nonce + i` on. -/
def txListFrom (nonce : ℕ) : ℕ → List TxData → List Tx
  | _, [] => []
  | i, d :: rest => buildTx d (nonce + i) :: txListFrom nonce (i + 1) rest

theorem buildAll_length (ext : Ext) :
    ∀ (actions : List PendingRow) (datas : List TxData),
      buildAll ext actions = Except.ok datas → datas.length = actions.length := by
  intro actions
  induction actions with
  | nil =>
    intro datas h
    simp only [buildAll] at h
    cases h
    rfl
  | cons r rest ih =>
    intro datas h
    simp only [buildAll] at h
    cases hb : buildTxData ext r with
    | error e =>
      rw [hb] at h
      exact absurd h (fun hh => Except.noConfusion hh)
    | ok d =>
      rw [hb] at h
      cases hrest : buildAll ext rest with
      | error e =>
        rw [hrest] at h
        exact absurd h (fun hh => Except.noConfusion hh)
      | ok ds =>
        rw [hrest] at h
        have h' : Except.ok (ε := PyErr) (d :: ds) = Except.ok datas := h
        cases h'
        simp [ih ds hrest]

theorem txListFrom_map_nonce (nonce : ℕ) :
    ∀ (datas : List TxData) (i : ℕ),
      (txListFrom nonce i datas).map Tx.nonce
        = (List.range datas.length).map (fun j => nonce + i + j) := by
  intro datas
  induction datas with
  | nil => intro i; simp [txListFrom]
  | cons d rest ih =>
    intro i
    simp only [txListFrom, List.map_cons, List.length_cons]
    rw [List.range_succ_eq_map, List.map_cons, List.map_map, ih (i + 1)]
    have hfun : ((fun j => nonce + i + j) ∘ Nat.succ) = fun j => nonce + (i + 1) + j :=
      funext fun j => by simp only [Function.comp_apply]; omega
    rw [hfun]
    simp [buildTx]

/-- Behaviour of the submission loop: the pool gains exactly the prefix of
the built transactions accepted before the first rejection; the loop
reports no error exactly when every transaction is accepted; and the
signer's confirmed transaction count, the durable rows, the in-memory
deque and the stats cache are untouched. -/
theorem submitLoop_spec (ext : Ext) (nonce now : ℕ) :
    ∀ (datas : List TxData) (i : ℕ) (st : SysState),
      (submitLoop ext nonce now datas i st).1.chain.pool
          = st.chain.pool ++ (txListFrom nonce i datas).takeWhile ext.submit_ok ∧
      ((submitLoop ext nonce now datas i st).2 = none ↔
          (txListFrom nonce i datas).all ext.submit_ok = true) ∧
      (submitLoop ext nonce now datas i st).1.chain.tx_count = st.chain.tx_count ∧
      (submitLoop ext nonce now datas i st).1.pending_actions = st.pending_actions ∧
      (submitLoop ext nonce now datas i st).1.pending_contributions
          = st.pending_contributions ∧
      (submitLoop ext nonce now datas i st).1.user_stats_cache = st.user_stats_cache := by
  intro datas
  induction datas with
  | nil => intro i st; simp [submitLoop, txListFrom]
  | cons d rest ih =>
    intro i st
    cases hok : ext.submit_ok (buildTx d (nonce + i)) with
    | false =>
      simp [submitLoop, txListFrom, hok]
    | true =>
      have hrec := ih (i + 1)
        { st with
          chain := { st.chain with pool := st.chain.pool ++ [buildTx d (nonce + i)] }
          action_status :=
            update_action_status st.action_status d.action_id "processing"
              (some (txHashOf (buildTx d (nonce + i)))) now }
      simp only [submitLoop, txListFrom, hok, if_true] at hrec ⊢
      simp only [List.takeWhile_cons, List.all_cons, hok, Bool.true_and, if_true]
      refine ⟨?_, ?_, ?_, ?_, ?_, ?_⟩
      · rw [hrec.1]; simp
      · exact hrec.2.1
      · rw [hrec.2.2.1]
      · exact hrec.2.2.2.1
      · exact hrec.2.2.2.2.1
      · exact hrec.2.2.2.2.2

/-- C2, amended.  Within a *single* handler invocation whose submissions
are all accepted, the nonces attached to the K transactions are the
strictly increasing consecutive integers
`tx_count, tx_count + 1, …, tx_count + K - 1`, starting from the signer's
current confirmed transaction count.  (Across handler invocations in the
same cycle this fails — each invocation re-reads the unchanged count; see
the counterexample.) -/
theorem c2_amended :
    ∀ (ext : Ext) (st : SysState) (now : ℕ) (actions : List PendingRow),
      exceptOk (buildAll ext actions) = true →
      (∀ t : Tx, ext.submit_ok t = true) →
      (process_generic_action_batch ext now actions st).chain.pool.map Tx.nonce
        = st.chain.pool.map Tx.nonce
          ++ (List.range actions.length).map (fun j => st.chain.tx_count + j) := by
  intro ext st now actions hok hsub
  cases hb : buildAll ext actions with
  | error e => rw [hb] at hok; exact absurd hok (by simp [exceptOk])
  | ok datas =>
    have hall : (txListFrom st.chain.tx_count 0 datas).all ext.submit_ok = true :=
      List.all_eq_true.mpr fun t _ => hsub t
    have hs := submitLoop_spec ext st.chain.tx_count now datas 0 st
    have hnone : (submitLoop ext st.chain.tx_count now datas 0 st).2 = none :=
      hs.2.1.mpr hall
    simp only [process_generic_action_batch, hb]
    rcases hsl : submitLoop ext st.chain.tx_count now datas 0 st with ⟨st', e⟩
    rw [hsl] at hs hnone
    simp only at hnone
    subst hnone
    simp only at hs ⊢
    rw [hs.1, List.takeWhile_eq_self_iff.mpr (fun t ht => hsub t), List.map_append,
      txListFrom_map_nonce, buildAll_length ext actions datas hb]
    simp

def c2RowA : PendingRow :=
  { action_id := "a1", user_wallet := "0xW", action_type := "REFERRAL",
    base_amount := 1, quality_score := 1, extra_data := "", queued_at := 0,
    status := "pending", retry_count := 0 }

def c2RowB : PendingRow := { c2RowA with action_id := "a2", action_type := "DAILY_CHECKIN" }

def c2St : SysState :=
  { SysState.empty with
    pending_actions := [c2RowA, c2RowB]
    chain := { tx_count := 7, pool := [] } }

/-- Witness for `c2_amended` on a two-action single-type group. -/
theorem c2_amended_witness :
    (process_generic_action_batch extPlain 0 [c2RowA, { c2RowA with action_id := "a9" }]
        c2St).chain.pool.map Tx.nonce
      = c2St.chain.pool.map Tx.nonce
        ++ (List.range ([c2RowA, { c2RowA with action_id := "a9" }].length)).map
            (fun j => c2St.chain.tx_count + j) :=
  c2_amended extPlain c2St 0 [c2RowA, { c2RowA with action_id := "a9" }]
    (by decide) (fun _ => rfl)

/-- C2, counterexample.  One batch-processor cycle over a batch of two
actions of different types ("split across multiple per-action-type
handlers"): each handler invocation re-reads the signer's confirmed
transaction count (7), which a raw submission does not change, so both
submitted transactions carry nonce 7 — a repeat, not strictly increasing
consecutive nonces. -/
theorem c2_counterexample :
    (batchCycle extPlain 0 c2St).chain.pool.map Tx.nonce = [7, 7] ∧
    ¬ List.Pairwise (· < ·) ((batchCycle extPlain 0 c2St).chain.pool.map Tx.nonce) := by
  decide

/-! ## C7 -/

/-- All the transactions the generic handler would submit for `actions`
(empty when the data-assembly phase raises). -/
def builtTxs (ext : Ext) (nonce : ℕ) (actions : List PendingRow) : List Tx :=
  match buildAll ext actions with
  | .ok datas => txListFrom nonce 0 datas
  | .error _ => []

/-- C7, amended.  When any submission in a group fails, the generic handler
(`try/except` around the whole loop) stops at the first failing
transaction — the transactions before it are the only ones submitted — and
the `except` block increments the retry count of *every* action of the
group, including the ones already submitted successfully.  When every
submission succeeds, no retry count changes and all transactions are
submitted. -/
theorem c7_amended :
    ∀ (ext : Ext) (st : SysState) (now : ℕ) (actions : List PendingRow),
      exceptOk (buildAll ext actions) = true →
      ((builtTxs ext st.chain.tx_count actions).all ext.submit_ok = false →
        (process_generic_action_batch ext now actions st).pending_actions
            = incrementAllRetries actions st.pending_actions ∧
        (process_generic_action_batch ext now actions st).chain.pool
            = st.chain.pool
              ++ (builtTxs ext st.chain.tx_count actions).takeWhile ext.submit_ok) ∧
      ((builtTxs ext st.chain.tx_count actions).all ext.submit_ok = true →
        (process_generic_action_batch ext now actions st).pending_actions
            = st.pending_actions ∧
        (process_generic_action_batch ext now actions st).chain.pool
            = st.chain.pool ++ builtTxs ext st.chain.tx_count actions) := by
  intro ext st now actions hok
  cases hb : buildAll ext actions with
  | error e => rw [hb] at hok; exact absurd hok (by simp [exceptOk])
  | ok datas =>
    have hs := submitLoop_spec ext st.chain.tx_count now datas 0 st
    have hbt : builtTxs ext st.chain.tx_count actions = txListFrom st.chain.tx_count 0 datas := by
      simp only [builtTxs, hb]
    rw [hbt]
    simp only [process_generic_action_batch, hb]
    rcases hsl : submitLoop ext st.chain.tx_count now datas 0 st with ⟨st', e⟩
    rw [hsl] at hs
    simp only at hs
    constructor
    · intro hfail
      cases e with
      | none =>
        exact absurd (hs.2.1.mp rfl) (by rw [hfail]; exact fun hh => Bool.noConfusion hh)
      | some err =>
        refine ⟨?_, ?_⟩
        · simp only [hs.2.2.2.1]
        · simpa using hs.1
    · intro hall
      cases e with
      | some err =>
        have : (some err : Option PyErr) = none := hs.2.1.mpr hall
        exact absurd this (by simp)
      | none =>
        refine ⟨hs.2.2.2.1, ?_⟩
        rw [hs.1, List.takeWhile_eq_self_iff.mpr (fun t ht => ?_)]
        exact List.all_eq_true.mp hall t ht

def extFail2 : Ext := { extPlain with submit_ok := fun t => t.action_id != "a2" }

def c7Rows : List PendingRow :=
  [c2RowA, { c2RowA with action_id := "a2" }, { c2RowA with action_id := "a3" }]

def c7St : SysState := { SysState.empty with pending_actions := c7Rows }

/-- Witness for `c7_amended` (failure branch) on the concrete
three-action group of `c7St`. -/
theorem c7_amended_witness :
    (process_generic_action_batch extFail2 9 c7Rows c7St).pending_actions
        = incrementAllRetries c7Rows c7St.pending_actions ∧
    (process_generic_action_batch extFail2 9 c7Rows c7St).chain.pool
        = c7St.chain.pool
          ++ (builtTxs extFail2 c7St.chain.tx_count c7Rows).takeWhile extFail2.submit_ok :=
  (c7_amended extFail2 c7St 9 c7Rows (by decide)).1 (by decide)

/-- C7, counterexample.  In a three-action group where only the second
submission is rejected: the first action was already submitted (it is in
the pool and marked `processing`), the third is never submitted, and the
`except` block increments the retry count of all three — including the
successfully submitted first action — rather than only the failing one,
and the loop does not continue with the rest of the group. -/
theorem c7_counterexample :
    (batchCycle extFail2 9 c7St).chain.pool.map Tx.action_id = ["a1"] ∧
    (batchCycle extFail2 9 c7St).pending_actions.map
        (fun r => (r.action_id, r.retry_count, r.status))
      = [("a1", 1, "pending"), ("a2", 1, "pending"), ("a3", 1, "pending")] ∧
    (batchCycle extFail2 9 c7St).action_status.map (fun p => (p.1, p.2.status))
      = [("a1", "processing")] := by
  decide

/-! ## C3 -/

/-- A batch cycle in which no durable row is selectable (no row is both
`pending` and under the retry ceiling) is a no-op. -/
theorem cycle_skips_nonselectable (ext : Ext) (now : ℕ) (st : SysState)
    (h : ∀ r ∈ st.pending_actions, ¬ (r.status = "pending" ∧ r.retry_count < 3)) :
    batchCycle ext now st = st := by
  unfold batchCycle
  have hfil : (st.pending_actions.filter fun r => r.status = "pending" && r.retry_count < 3)
      = [] := by
    rw [List.filter_eq_nil_iff]
    intro r hr
    have := h r hr
    simp only [Bool.and_eq_true, decide_eq_true_eq]
    tauto
  rw [hfil]
  simp

/-- One batch cycle over a single selectable action whose submission fails:
the durable row's retry count is incremented and its status set to
`pending`, or `abandoned` at the ceiling; nothing else changes. -/
theorem cycle_fail_single (ext : Ext)
    (hfail : ∀ t, ext.submit_ok t = false) (r : PendingRow) (cw : String) (k : ℕ)
    (hchk : ext.to_checksum r.user_wallet = Except.ok cw)
    (hty : ACTION_TYPES.lookup r.action_type = some k)
    (hnm : r.action_type ≠ "MESSAGE") (hnj : r.action_type ≠ "JOURNEY")
    (hst : r.status = "pending") (hrc : r.retry_count < 3) (now : ℕ) (st : SysState)
    (hpend : st.pending_actions = [r]) :
    batchCycle ext now st
      = { st with pending_actions :=
            [{ r with
                retry_count := r.retry_count + 1
                status := if 3 ≤ r.retry_count + 1 then "abandoned" else "pending" }] } := by
  have hbuild : buildAll ext [r] = Except.ok
      [{ user := cw, action_type_idx := k, amount_wei := to_wei_ether r.base_amount,
         quality_bps := pyTrunc (r.quality_score * 10000), action_id := r.action_id,
         extra := r.extra_data }] := by
    unfold buildAll buildTxData
    rw [hchk, hty]
    rfl
  unfold batchCycle
  rw [hpend]
  have hfil : ([r].filter fun x => x.status = "pending" && x.retry_count < 3) = [r] := by
    simp [hst, hrc]
  rw [hfil]
  have htake : List.take 50 [r] = [r] := rfl
  rw [htake, if_neg (by simp)]
  simp only [process_batch_from_lance, groupKeys, List.foldl_cons, List.foldl_nil,
    List.not_mem_nil, if_false, List.nil_append]
  simp only [groupOf, List.filter_cons, List.filter_nil, decide_True, if_true]
  simp only [hnm, hnj, if_false]
  simp only [process_generic_action_batch, hbuild, submitLoop, hfail, Bool.false_eq_true,
    if_false]
  simp only [incrementAllRetries, List.foldl_cons, List.foldl_nil, increment_retry_count,
    hpend, List.map_cons, List.map_nil, if_pos rfl]
  simp

/-- C3, amended.  An always-failing single queued action is retried once
per cycle: after the first and second failed attempts its durable row is
`pending` with retry counts 1 and 2; the third failed attempt sets
`retry_count = 3` and status `abandoned` — exactly 3 failed attempts — and
a further cycle is a no-op, as is any cycle over a store with no `pending`
row, so `abandoned` is terminal.  (`confirmed`, however, is *not* terminal:
see the counterexample.)  The retry increment itself
(`_increment_retry_count`) is absent from the repository and modelled from
spec §4.3. -/
theorem c3_amended :
    ∀ (ext : Ext) (r : PendingRow) (cw : String) (k n1 n2 n3 n4 : ℕ),
      (∀ t, ext.submit_ok t = false) →
      ext.to_checksum r.user_wallet = Except.ok cw →
      ACTION_TYPES.lookup r.action_type = some k →
      r.action_type ≠ "MESSAGE" → r.action_type ≠ "JOURNEY" →
      r.status = "pending" → r.retry_count = 0 →
      ((batchCycle ext n1
          { SysState.empty with pending_actions := [r] }).pending_actions
          = [{ r with retry_count := 1, status := "pending" }]) ∧
      ((batchCycle ext n2 (batchCycle ext n1
          { SysState.empty with pending_actions := [r] })).pending_actions
          = [{ r with retry_count := 2, status := "pending" }]) ∧
      ((batchCycle ext n3 (batchCycle ext n2 (batchCycle ext n1
          { SysState.empty with pending_actions := [r] }))).pending_actions
          = [{ r with retry_count := 3, status := "abandoned" }]) ∧
      (batchCycle ext n4 (batchCycle ext n3 (batchCycle ext n2 (batchCycle ext n1
          { SysState.empty with pending_actions := [r] })))
          = batchCycle ext n3 (batchCycle ext n2 (batchCycle ext n1
              { SysState.empty with pending_actions := [r] }))) ∧
      (∀ (now : ℕ) (st' : SysState),
          (∀ row ∈ st'.pending_actions, row.status ≠ "pending") →
          batchCycle ext now st' = st') := by
  intro ext r cw k n1 n2 n3 n4 hfail hchk hty hnm hnj hst hrc
  have h1 := cycle_fail_single ext hfail r cw k hchk hty hnm hnj hst (by omega) n1
    { SysState.empty with pending_actions := [r] } rfl
  rw [hrc] at h1
  norm_num at h1
  have h2 := cycle_fail_single ext hfail { r with retry_count := 1, status := "pending" }
    cw k hchk hty hnm hnj rfl (by norm_num) n2
    (batchCycle ext n1 { SysState.empty with pending_actions := [r] }) (by rw [h1])
  norm_num at h2
  have h3 := cycle_fail_single ext hfail { r with retry_count := 2, status := "pending" }
    cw k hchk hty hnm hnj rfl (by norm_num) n3
    (batchCycle ext n2 (batchCycle ext n1 { SysState.empty with pending_actions := [r] }))
    (by rw [h2])
  norm_num at h3
  have hp3 : (batchCycle ext n3 (batchCycle ext n2 (batchCycle ext n1
      { SysState.empty with pending_actions := [r] }))).pending_actions
      = [{ r with retry_count := 3, status := "abandoned" }] := by
    rw [h3]
  refine ⟨by rw [h1], by rw [h2], hp3, ?_, ?_⟩
  · apply cycle_skips_nonselectable
    intro row hrow
    rw [hp3] at hrow
    simp at hrow
    subst hrow
    simp
  · intro now st' h
    apply cycle_skips_nonselectable
    intro row hrow
    have := h row hrow
    tauto

def extNoSub : Ext := { extPlain with submit_ok := fun _ => false }

/-- Witness for `c3_amended`: the abandoned-after-exactly-three-cycles
conjunct at a concrete always-failing REFERRAL action. -/
theorem c3_amended_witness :
    (batchCycle extNoSub 3 (batchCycle extNoSub 2 (batchCycle extNoSub 1
        { SysState.empty with pending_actions := [c2RowA] }))).pending_actions
      = [{ c2RowA with retry_count := 3, status := "abandoned" }] :=
  (c3_amended extNoSub c2RowA "0xW" 2 1 2 3 4 (fun _ => rfl) rfl (by decide)
    (by decide) (by decide) rfl rfl).2.2.1

def c3StConfirmed : SysState :=
  { SysState.empty with
    pending_actions := [c2RowA]
    action_status := [("a1", { status := "confirmed", tx_hash := some "0xdead", updated_at := 0 })] }

/-- C3, counterexample to terminality of `confirmed`.  An action whose
status store says `confirmed` still has its durable `pending_actions` row
at `status='pending'` (the source never updates that table), so the next
cycle re-selects it, re-submits it, and upserts its status back to
`processing`: the transition `confirmed → processing` occurs, so
`confirmed` is not terminal. -/
theorem c3_counterexample :
    is_action_processed c3StConfirmed "a1" = true ∧
    (batchCycle extPlain 5 c3StConfirmed).action_status.map (fun p => (p.1, p.2.status))
      = [("a1", "processing")] ∧
    (batchCycle extPlain 5 c3StConfirmed).chain.pool.map Tx.action_id = ["a1"] := by
  decide

/-! ## C8 -/

/-- C8, counterexample.  The first event of a wallet that has no record in
the user cache does *not* create an `AccrualRecord`: `update_user_token_count`
logs a warning and returns `None`, leaving the cache untouched — the
event's tokens are silently dropped. -/
theorem c8_counterexample :
    update_user_token_count [] "2025-01-01" "t0" "0xNewUser"
        { platform := some "claude", total_tokens := some 42 } "user"
      = ([], none) := by
  decide

/-- C8, amended.  `accrue` runs synchronously at ingestion time: it takes
no settlement state at all, so its effect is independent of whether any
ContributionAction has settled or ever will.  When the wallet's record is
present it adds the event's token count to the total, to the per-platform
entry, to the per-role entry and to the day's bucket.  But it does *not*
create the record on a wallet's first event: when the wallet is absent,
nothing is written and `None` is returned. -/
theorem c8_amended :
    (∀ (cache : List (String × UserRecord)) (today nowIso wallet : String)
        (tm : TokenMetrics) (role : String),
        cacheLookup cache wallet = none →
        update_user_token_count cache today nowIso wallet tm role = (cache, none)) ∧
    (∀ (cache : List (String × UserRecord)) (today nowIso wallet : String)
        (u : UserRecord) (tm : TokenMetrics) (role : String),
        cacheLookup cache wallet = some u →
        update_user_token_count cache today nowIso wallet tm role
          = (cache.map fun p =>
              if p.1 = wallet then
                (wallet, accrueUpdate u today nowIso (tm.platform.getD "unknown")
                  (tm.total_tokens.getD 0) role)
              else p,
             some (accrueUpdate u today nowIso (tm.platform.getD "unknown")
               (tm.total_tokens.getD 0) role)) ∧
        (accrueUpdate u today nowIso (tm.platform.getD "unknown")
            (tm.total_tokens.getD 0) role).total_tokens
          = some (u.total_tokens.getD 0 + tm.total_tokens.getD 0) ∧
        dictGet ((accrueUpdate u today nowIso (tm.platform.getD "unknown")
            (tm.total_tokens.getD 0) role).tokens_by_platform.getD [])
            (tm.platform.getD "unknown")
          = some ((dictGet (u.tokens_by_platform.getD []) (tm.platform.getD "unknown")).getD 0
              + tm.total_tokens.getD 0) ∧
        dictGet ((accrueUpdate u today nowIso (tm.platform.getD "unknown")
            (tm.total_tokens.getD 0) role).tokens_by_role.getD []) role
          = some ((dictGet (u.tokens_by_role.getD [("user", 0), ("assistant", 0)]) role).getD 0
              + tm.total_tokens.getD 0) ∧
        dictGet ((accrueUpdate u today nowIso (tm.platform.getD "unknown")
            (tm.total_tokens.getD 0) role).daily_tokens.getD []) today
          = some ((dictGet (u.daily_tokens.getD []) today).getD 0
              + tm.total_tokens.getD 0)) := by
  constructor
  · intro cache today nowIso wallet tm role h
    unfold update_user_token_count
    rw [h]
  · intro cache today nowIso wallet u tm role h
    refine ⟨?_, ?_, ?_, ?_, ?_⟩
    · unfold update_user_token_count
      rw [h]
    · simp [accrueUpdate]
    · simp [accrueUpdate, dictGet_dictAdd]
    · simp [accrueUpdate, dictGet_dictAdd]
    · simp [accrueUpdate, dictGet_dictAdd]

def c8User : UserRecord :=
  { total_tokens := some 10
    tokens_by_platform := some [("claude", 10)]
    tokens_by_role := some [("user", 4), ("assistant", 6)]
    daily_tokens := some [("2025-01-01", 10)]
    last_token_update := some "t0" }

/-- Witness for `c8_amended` (present-wallet branch) at a concrete cache. -/
theorem c8_amended_witness :
    update_user_token_count [("0xU", c8User)] "2025-01-02" "t1" "0xU"
        { platform := some "claude", total_tokens := some 5 } "user"
      = ([("0xU", c8User)].map fun p =>
          if p.1 = "0xU" then
            (("0xU" : String), accrueUpdate c8User "2025-01-02" "t1" "claude" 5 "user")
          else p,
         some (accrueUpdate c8User "2025-01-02" "t1" "claude" 5 "user")) ∧
    (accrueUpdate c8User "2025-01-02" "t1" "claude" 5 "user").total_tokens
      = some (c8User.total_tokens.getD 0 + 5) := by
  have h := (c8_amended.2 [("0xU", c8User)] "2025-01-02" "t1" "0xU" c8User
    { platform := some "claude", total_tokens := some 5 } "user" (by decide))
  exact ⟨h.1, h.2.1⟩

/-! ## C10 -/

/-- A `queued` return appends exactly one entry — the action together with
its derived id and timestamp — and reports its position as the queue
length right after the append. -/
theorem queue_action_queued (ext : Ext) (st : SysState) (now : ℕ) (a : ActionInput) :
    isQueued (queue_action ext st now a) = true →
    (stateOf st (queue_action ext st now a)).pending_contributions
        = st.pending_contributions
          ++ [{ action := a, action_id := generate_action_id ext a now, queued_at := now }] ∧
    positionOf (queue_action ext st now a)
        = some (st.pending_contributions.length + 1) := by
  intro h
  unfold queue_action at h ⊢
  by_cases haddr : ext.is_address a.wallet
  · by_cases hproc : is_action_processed st (generate_action_id ext a now)
    · simp [haddr, hproc, isQueued] at h
    · simp [haddr, hproc, stateOf, positionOf]
  · simp [haddr, isQueued] at h

/-- Any normal return of `queue_action` leaves the deque unchanged
(duplicate) or appends exactly one entry. -/
theorem queue_action_deque_cases (ext : Ext) (st : SysState) (now : ℕ) (a : ActionInput) :
    ∀ (res : QueueResult) (st' : SysState),
      queue_action ext st now a = Except.ok (res, st') →
      st'.pending_contributions = st.pending_contributions ∨
      st'.pending_contributions
        = st.pending_contributions
          ++ [{ action := a, action_id := generate_action_id ext a now, queued_at := now }] := by
  intro res st' h
  unfold queue_action at h
  by_cases haddr : ext.is_address a.wallet
  · by_cases hproc : is_action_processed st (generate_action_id ext a now)
    · simp only [haddr, hproc, not_true, if_false, if_true, ite_true, ite_false] at h
      have h' : (QueueResult.alreadyProcessed, st) = (res, st') := by
        simpa using h
      left
      rw [← (Prod.mk.injEq _ _ _ _).mp h' |>.2]
    · simp only [haddr, hproc, not_true, if_false, if_true, ite_true, ite_false] at h
      have h2 := congrArg (fun x => match x with
        | Except.ok (_, s) => s.pending_contributions
        | Except.error _ => []) h
      simp at h2
      right
      rw [← h2]
  · simp [haddr] at h

/-- The generic batch handler never touches the in-memory deque. -/
theorem pgab_deque (ext : Ext) (now : ℕ) (actions : List PendingRow) (st : SysState) :
    (process_generic_action_batch ext now actions st).pending_contributions
      = st.pending_contributions := by
  unfold process_generic_action_batch
  cases hb : buildAll ext actions with
  | error e => rfl
  | ok datas =>
    have hs := submitLoop_spec ext st.chain.tx_count now datas 0 st
    rcases hsl : submitLoop ext st.chain.tx_count now datas 0 st with ⟨st', e⟩
    rw [hsl] at hs
    simp only [hsl]
    cases e with
    | none => simpa using hs.2.2.2.2.1
    | some err => simpa using hs.2.2.2.2.1

/-- Dispatching the grouped batch never touches the in-memory deque. -/
theorem pbfl_deque (ext : Ext) (now : ℕ) (actions : List PendingRow) (st : SysState) :
    (process_batch_from_lance ext now actions st).pending_contributions
      = st.pending_contributions := by
  unfold process_batch_from_lance
  generalize groupKeys actions = ks
  induction ks generalizing st with
  | nil => rfl
  | cons ty rest ih =>
    rw [List.foldl_cons]
    rw [ih]
    by_cases hm : ty = "MESSAGE"
    · simp only [hm, if_true, ite_true, process_message_batch]
      exact pgab_deque ext now (groupOf actions "MESSAGE") st
    · by_cases hj : ty = "JOURNEY"
      · simp only [hm, hj, if_false, if_true, ite_true, ite_false, process_journey_batch]
        exact pgab_deque ext now (groupOf actions "JOURNEY") st
      · simp only [hm, hj, if_false, ite_false]
        exact pgab_deque ext now (groupOf actions ty) st

/-- A batch-processor cycle never touches the in-memory deque: it drains
only the durable store. -/
theorem batchCycle_deque (ext : Ext) (now : ℕ) (st : SysState) :
    (batchCycle ext now st).pending_contributions = st.pending_contributions := by
  unfold batchCycle
  by_cases h : ((st.pending_actions.filter fun r =>
      r.status = "pending" && r.retry_count < 3).take 50) = []
  · rw [if_pos h]
  · rw [if_neg h]
    exact pbfl_deque ext now _ st

/-- A normal return of `process_journey` only ever extends the deque
through its inner `queue_action`. -/
theorem process_journey_deque (ext : Ext) (st : SysState) (now : ℕ) (jd : JourneyInput) :
    ∀ (res : QueueResult) (st2 : SysState),
      process_journey ext st now jd = Except.ok (res, st2) →
      st.pending_contributions <+: st2.pending_contributions := by
  intro res st2 h
  unfold process_journey at h
  cases hq : queue_action ext st now (journeyAction jd now) with
  | error e => rw [hq] at h; exact absurd h (fun hh => Except.noConfusion hh)
  | ok p =>
    rcases p with ⟨res', st'⟩
    rw [hq] at h
    have h' : Except.ok (ε := PyErr)
        (res', { st' with journeys := st'.journeys ++ [_] }) = Except.ok (res, st2) := h
    have hst : st2.pending_contributions = st'.pending_contributions := by
      cases h'; rfl
    rw [hst]
    rcases queue_action_deque_cases ext st now (journeyAction jd now) res' st' hq with h2 | h2
    · rw [h2]
    · rw [h2]; exact List.prefix_append _ _

/-- A normal return of `referralQueueTail` only ever extends the deque
through its inner `queue_action`. -/
theorem referralQueueTail_deque (ext : Ext) (st2 : SysState) (now : ℕ)
    (referrer referee : String) (tx : Tx) :
    ∀ (res : ReferralResult) (st3 : SysState),
      referralQueueTail ext st2 now referrer referee tx = Except.ok (res, st3) →
      st2.pending_contributions <+: st3.pending_contributions := by
  intro res st3 h
  unfold referralQueueTail at h
  cases hq : queue_action ext st2 now (referralBonus referrer referee) with
  | error e =>
    rw [hq] at h
    exact absurd h (fun hh => Except.noConfusion hh)
  | ok p =>
    rcases p with ⟨res', st4⟩
    rw [hq] at h
    have h' : Except.ok (ε := PyErr) (ReferralResult.success (txHashOf tx), st4)
        = Except.ok (res, st3) := h
    have hst : st3 = st4 := by cases h'; rfl
    rw [hst]
    rcases queue_action_deque_cases ext st2 now (referralBonus referrer referee)
        res' st4 hq with h2 | h2
    · rw [h2]
    · rw [h2]; exact List.prefix_append _ _

/-- A normal return of `recordReferralTx` only ever extends the deque
through its inner `queue_action`. -/
theorem recordReferralTx_deque (ext : Ext) (st : SysState) (now : ℕ)
    (referrer referee code : String) :
    ∀ (res : ReferralResult) (st3 : SysState),
      recordReferralTx ext st now referrer referee code = Except.ok (res, st3) →
      st.pending_contributions <+: st3.pending_contributions := by
  intro res st3 h
  unfold recordReferralTx at h
  by_cases hsub : ext.submit_ok
      { kind := "recordReferral", nonce := st.chain.tx_count, to_user := referee,
        extra := code } = true
  · rw [if_neg (by simp [hsub])] at h
    have hx := referralQueueTail_deque ext _ now referrer referee _ res st3 h
    exact hx
  · rw [if_pos (by simp [hsub])] at h
    exact absurd h (fun hh => Except.noConfusion hh)

/-- A normal return of `record_referral` only ever extends the deque
through its inner `queue_action`. -/
theorem record_referral_deque (ext : Ext) (st : SysState) (now : ℕ)
    (referrer_wallet referee_wallet code : String) :
    ∀ (res : ReferralResult) (st3 : SysState),
      record_referral ext st now referrer_wallet referee_wallet code
          = Except.ok (res, st3) →
      st.pending_contributions <+: st3.pending_contributions := by
  intro res st3 h
  unfold record_referral at h
  cases hcr : ext.to_checksum referrer_wallet with
  | error e => rw [hcr] at h; exact absurd h (fun hh => Except.noConfusion hh)
  | ok referrer =>
    rw [hcr] at h
    simp only [exceptBind_ok] at h
    cases hce : ext.to_checksum referee_wallet with
    | error e => rw [hce] at h; exact absurd h (fun hh => Except.noConfusion hh)
    | ok referee =>
      rw [hce] at h
      simp only [exceptBind_ok] at h
      cases hex : (st.users.filter fun u => u.wallet = referee).take 1 with
      | nil =>
        rw [hex] at h
        exact recordReferralTx_deque ext st now referrer referee code res st3 h
      | cons u rest =>
        rw [hex] at h
        dsimp only at h
        by_cases href : (u.referred_by.getD "") ≠ ""
        · rw [if_pos href] at h
          have h' : Except.ok (ε := PyErr) (ReferralResult.alreadyReferred, st)
              = Except.ok (res, st3) := h
          have : st3 = st := by cases h'; rfl
          rw [this]
        · rw [if_neg href] at h
          exact recordReferralTx_deque ext st now referrer referee code res st3 h

/-- A normal return of `process_daily_checkin` only ever extends the deque
through its inner `queue_action`. -/
theorem process_daily_checkin_deque (ext : Ext) (st : SysState) (now : ℕ) (wallet : String) :
    ∀ (res : Option QueueResult) (st2 : SysState),
      process_daily_checkin ext st now wallet = Except.ok (res, st2) →
      st.pending_contributions <+: st2.pending_contributions := by
  intro res st2 h
  unfold process_daily_checkin at h
  by_cases htoday : ((st.user_stats_cache.filter fun r =>
      r.wallet = wallet && now < r.cache_expiry).take 1) ≠ []
  · rw [if_pos htoday] at h
    have h' : Except.ok (ε := PyErr) ((none : Option QueueResult), st)
        = Except.ok (res, st2) := h
    have : st2 = st := by cases h'; rfl
    rw [this]
  · rw [if_neg htoday] at h
    cases hq : queue_action ext st now (checkinAction wallet now) with
    | error e => rw [hq] at h; exact absurd h (fun hh => Except.noConfusion hh)
    | ok p =>
      rcases p with ⟨res', st'⟩
      rw [hq] at h
      have h' : Except.ok (ε := PyErr) (some res', st') = Except.ok (res, st2) := h
      have hst : st2 = st' := by cases h'; rfl
      rw [hst]
      rcases queue_action_deque_cases ext st now (checkinAction wallet now) res' st' hq
          with h2 | h2
      · rw [h2]
      · rw [h2]; exact List.prefix_append _ _

/-- A normal return of `grant_achievement` leaves the deque unchanged. -/
theorem grant_achievement_deque (ext : Ext) (st : SysState) (w aid : String) :
    ∀ (hash : String) (st2 : SysState),
      grant_achievement ext st w aid = Except.ok (hash, st2) →
      st2.pending_contributions = st.pending_contributions := by
  intro hash st2 h
  unfold grant_achievement at h
  cases hcw : ext.to_checksum w with
  | error e => rw [hcw] at h; exact absurd h (fun hh => Except.noConfusion hh)
  | ok cw =>
    rw [hcw] at h
    simp only [exceptBind_ok] at h
    by_cases hsub : ext.submit_ok
        { kind := "grantAchievement", nonce := st.chain.tx_count, to_user := cw,
          extra := aid } = true
    · rw [if_neg (by simp [hsub])] at h
      have h' : Except.ok (ε := PyErr) (txHashOf _,
          ({ st with chain := { st.chain with pool := st.chain.pool ++ [_] } } : SysState))
          = Except.ok (hash, st2) := h
      cases h'
      rfl
    · rw [if_pos (by simp [hsub])] at h
      exact absurd h (fun hh => Except.noConfusion hh)

/-- A normal return of `get_user_stats` leaves the deque unchanged. -/
theorem get_user_stats_deque (ext : Ext) (st : SysState) (now : ℕ) (w : String) :
    ∀ (s : Stats) (st2 : SysState),
      get_user_stats ext st now w = Except.ok (s, st2) →
      st2.pending_contributions = st.pending_contributions := by
  intro s st2 h
  unfold get_user_stats at h
  cases hcw : ext.to_checksum w with
  | error e => rw [hcw] at h; exact absurd h (fun hh => Except.noConfusion hh)
  | ok cw =>
    rw [hcw] at h
    simp only [exceptBind_ok] at h
    cases hfil : (st.user_stats_cache.filter fun r =>
        r.wallet = cw && now < r.cache_expiry).take 1 with
    | cons row rest =>
      rw [hfil] at h
      exact absurd h (fun hh => Except.noConfusion hh)
    | nil =>
      rw [hfil] at h
      have h' : Except.ok (ε := PyErr) (get_onchain_stats ext cw,
          ({ st with
             user_stats_cache := st.user_stats_cache ++ [_]
             chain_reads := st.chain_reads + 1 } : SysState)) = Except.ok (s, st2) := h
      cases h'
      rfl

/-- Every operation of the service leaves the in-memory fast-path deque a
prefix of what it was: nothing is ever removed. -/
theorem applyOp_deque_extends (ext : Ext) (st : SysState) (op : ServiceOp) :
    st.pending_contributions <+: (applyOp ext st op).pending_contributions := by
  cases op with
  | queue now a =>
    simp only [applyOp]
    cases h : queue_action ext st now a with
    | error e => exact List.prefix_refl _
    | ok p =>
      rcases p with ⟨res, st'⟩
      rcases queue_action_deque_cases ext st now a res st' h with h2 | h2
      · rw [h2]
      · rw [h2]; exact List.prefix_append _ _
  | journey now jd =>
    simp only [applyOp]
    cases h : process_journey ext st now jd with
    | error e => exact List.prefix_refl _
    | ok p =>
      rcases p with ⟨res, st2⟩
      exact process_journey_deque ext st now jd res st2 h
  | referral now r e c =>
    simp only [applyOp]
    cases h : record_referral ext st now r e c with
    | error err => exact List.prefix_refl _
    | ok p =>
      rcases p with ⟨res, st3⟩
      exact record_referral_deque ext st now r e c res st3 h
  | checkin now w =>
    simp only [applyOp]
    cases h : process_daily_checkin ext st now w with
    | error err => exact List.prefix_refl _
    | ok p =>
      rcases p with ⟨res, st2⟩
      exact process_daily_checkin_deque ext st now w res st2 h
  | achievement w aid =>
    simp only [applyOp]
    cases h : grant_achievement ext st w aid with
    | error err => exact List.prefix_refl _
    | ok p =>
      rcases p with ⟨hash, st2⟩
      rw [grant_achievement_deque ext st w aid hash st2 h]
  | stats now w =>
    simp only [applyOp]
    cases h : get_user_stats ext st now w with
    | error err => exact List.prefix_refl _
    | ok p =>
      rcases p with ⟨s, st2⟩
      rw [get_user_stats_deque ext st now w s st2 h]
  | batch now =>
    simp only [applyOp]
    rw [batchCycle_deque]

/-- Any run of service operations leaves the deque a prefix of the final
deque. -/
theorem applyOps_deque_extends (ext : Ext) :
    ∀ (ops : List ServiceOp) (st : SysState),
      st.pending_contributions <+: (applyOps ext st ops).pending_contributions := by
  intro ops
  induction ops with
  | nil => intro st; exact List.prefix_refl _
  | cons op rest ih =>
    intro st
    exact (applyOp_deque_extends ext st op).trans (ih (applyOp ext st op))

/-- C10: the in-memory fast-path queue is append-only.  (1) No operation of
the service ever removes an element: every operation leaves the previous
deque a prefix of the new one (the batch processor drains only the durable
store).  (2) A successful (`queued`) `queue_action` appends exactly one
element and reports `position_in_queue` equal to the queue's length right
after the append.  (3) Hence positions strictly increase across successive
successful calls, with any service activity in between. -/
theorem c10_append_only_positions :
    (∀ (ext : Ext) (st : SysState) (op : ServiceOp),
        st.pending_contributions <+: (applyOp ext st op).pending_contributions) ∧
    (∀ (ext : Ext) (st : SysState) (now : ℕ) (a : ActionInput),
        isQueued (queue_action ext st now a) = true →
        (stateOf st (queue_action ext st now a)).pending_contributions
            = st.pending_contributions
              ++ [{ action := a, action_id := generate_action_id ext a now,
                    queued_at := now }] ∧
        positionOf (queue_action ext st now a)
            = some ((stateOf st (queue_action ext st now a)).pending_contributions.length)) ∧
    (∀ (ext : Ext) (st : SysState) (now : ℕ) (a : ActionInput) (ops : List ServiceOp)
        (now2 : ℕ) (a2 : ActionInput) (p p2 : ℕ),
        isQueued (queue_action ext st now a) = true →
        positionOf (queue_action ext st now a) = some p →
        isQueued (queue_action ext
            (applyOps ext (stateOf st (queue_action ext st now a)) ops) now2 a2) = true →
        positionOf (queue_action ext
            (applyOps ext (stateOf st (queue_action ext st now a)) ops) now2 a2)
          = some p2 →
        p < p2) := by
  refine ⟨applyOp_deque_extends, ?_, ?_⟩
  · intro ext st now a hq
    have h := queue_action_queued ext st now a hq
    refine ⟨h.1, ?_⟩
    rw [h.2, h.1]
    simp
  · intro ext st now a ops now2 a2 p p2 hq1 hpos1 hq2 hpos2
    have h1 := queue_action_queued ext st now a hq1
    have hp1 : p = st.pending_contributions.length + 1 := by
      rw [h1.2] at hpos1
      exact (Option.some.inj hpos1).symm
    have hlen1 : (stateOf st (queue_action ext st now a)).pending_contributions.length
        = st.pending_contributions.length + 1 := by
      rw [h1.1]
      simp
    have hpre := applyOps_deque_extends ext ops (stateOf st (queue_action ext st now a))
    have hlen2 : (stateOf st (queue_action ext st now a)).pending_contributions.length
        ≤ (applyOps ext (stateOf st (queue_action ext st now a)) ops).pending_contributions.length :=
      hpre.length_le
    have h2 := queue_action_queued ext
      (applyOps ext (stateOf st (queue_action ext st now a)) ops) now2 a2 hq2
    have hp2 : p2 = (applyOps ext (stateOf st (queue_action ext st now a))
        ops).pending_contributions.length + 1 := by
      rw [h2.2] at hpos2
      exact (Option.some.inj hpos2).symm
    omega

/-- Witness for `c10_append_only_positions` (the strict-increase conjunct)
on two concrete successive submissions: the first returns position 1, the
second position 2, and the theorem yields their strict ordering. -/
theorem c10_witness :
    positionOf (queue_action extPlain SysState.empty 1 c1Action) = some 1 ∧
    positionOf (queue_action extPlain
        (applyOps extPlain (stateOf SysState.empty
          (queue_action extPlain SysState.empty 1 c1Action)) []) 2 c1ActionOther)
      = some 2 ∧
    (1 : ℕ) < 2 :=
  ⟨by decide, by decide,
   c10_append_only_positions.2.2 extPlain SysState.empty 1 c1Action [] 2 c1ActionOther
     1 2 (by decide) (by decide) (by decide) (by decide)⟩

end Tweetly
